import Mathlib

/-!
# GenoFlow API Gateway — verification of the request-routing and resilience subsystem

Shallow embedding of the GenoFlow API gateway (`docs/genoflow_api_gateway.py`):
the service registry with health-scored load balancing, the token-based
authentication handler, the per-client rate limiter, and the middleware
pipeline composition.  Health scores and random draws are modelled as exact
rationals (the Python source uses floats only for small clamped additive
updates, so the exact-arithmetic model matches the intended values); machine
timestamps are naturals; Redis is modelled as an explicit association-list
store threaded through the operations.
-/

namespace GenoFlow

/-! ## Service registry (`core/service_registry.py` section of the source)

`ServiceInstance` is the `@dataclass` of the source: a url, a health score
(float, starts at 1.0), the time of the last active probe and a consecutive
failure counter. -/

structure ServiceInstance where
  url : String
  health_score : ℚ := 1
  last_check : ℚ := 0
  failures : ℕ := 0
deriving DecidableEq, Repr

/-- `ServiceInstance(url=url)` — the constructor applied in `register_service`:
all defaulted fields, health score 1.0. -/
def mkInstance (url : String) : ServiceInstance :=
  { url := url }

/-- The registry's `self.services` dict: service name to instance list.
Modelled as an association list; `register_service` replaces the binding. -/
abbrev Services := List (String × List ServiceInstance)

/-- Python dict lookup `self.services.get(name)` / `name in self.services`. -/
def servicesGet (s : Services) (name : String) : Option (List ServiceInstance) :=
  (s.find? (fun p => p.1 = name)).map (fun p => p.2)

/-- Python dict assignment `self.services[name] = instances`. -/
def servicesSet (s : Services) (name : String) (insts : List ServiceInstance) : Services :=
  if (s.find? (fun p => p.1 = name)).isSome then
    s.map (fun p => if p.1 = name then (name, insts) else p)
  else
    s ++ [(name, insts)]

/-- `register_service(name, urls)`: replaces the instance set for `name`,
each instance fresh at health score 1.0.  (The Redis `setex service:{name}`
persistence side effect carries no health state and is modelled where it is
consumed, as the optional store argument of `get_service_url`.) -/
def register_service (s : Services) (name : String) (urls : List String) : Services :=
  servicesSet s name (urls.map mkInstance)

/-- The source's `for instance in ...: if instance.url == url: ...; break`
loop: mutate the first element satisfying `p` and stop. -/
def updateFirst (p : α → Bool) (f : α → α) : List α → List α
  | [] => []
  | a :: as => if p a then f a :: as else a :: updateFirst p f as

/-- `record_success(service_name, url)`: first matching instance gets
`health_score = min(1.0, health_score + 0.05)`; no-op when absent. -/
def record_success (s : Services) (name url : String) : Services :=
  updateFirst (fun p => p.1 = name)
    (fun p => (p.1, updateFirst (fun i => i.url = url)
      (fun i => { i with health_score := min 1 (i.health_score + 5/100) }) p.2)) s

/-- `record_failure(service_name, url)`: first matching instance gets
`failures += 1` and `health_score = max(0.0, health_score - 0.1)`. -/
def record_failure (s : Services) (name url : String) : Services :=
  updateFirst (fun p => p.1 = name)
    (fun p => (p.1, updateFirst (fun i => i.url = url)
      (fun i => { i with failures := i.failures + 1,
                         health_score := max 0 (i.health_score - 1/10) }) p.2)) s

/-- `health_check(service_name, instance)` body: the probe outcome
(2xx response versus timeout / connection error / non-2xx, all of which land
in the `except` arm) is an input `probeOk`; `last_check` is always updated
(`finally` clause). -/
def health_check (probeOk : Bool) (now : ℚ) (i : ServiceInstance) : ServiceInstance :=
  if probeOk then
    { i with health_score := min 1 (i.health_score + 1/10), failures := 0, last_check := now }
  else
    { i with failures := i.failures + 1,
             health_score := max 0 (i.health_score - 2/10), last_check := now }

/-- Mutation of the list element at index `n` (a `health_check` call holds a
direct reference to one instance aliased into the registry's list). -/
def modifyIdx (f : α → α) : ℕ → List α → List α
  | _, [] => []
  | 0, a :: as => f a :: as
  | n + 1, a :: as => a :: modifyIdx f n as

/-- One health-feedback call on the registry: the three mutating operations
of the claim. -/
inductive RegistryEvent where
  | recordSuccess (name url : String)
  | recordFailure (name url : String)
  | healthCheck (name : String) (idx : ℕ) (probeOk : Bool) (now : ℚ)
deriving Repr

def registryStep (s : Services) : RegistryEvent → Services
  | .recordSuccess name url => record_success s name url
  | .recordFailure name url => record_failure s name url
  | .healthCheck name idx probeOk now =>
      updateFirst (fun p => p.1 = name)
        (fun p => (p.1, modifyIdx (health_check probeOk now) idx p.2)) s

def registryRun (s : Services) (evs : List RegistryEvent) : Services :=
  evs.foldl registryStep s

/-- All health scores of all registered instances lie in `[0, 1]`. -/
def ScoresIn01 (s : Services) : Prop :=
  ∀ p ∈ s, ∀ i ∈ p.2, 0 ≤ i.health_score ∧ i.health_score ≤ 1

/-! ### Clamp lemmas: each mutation keeps the score inside `[0, 1]` -/

lemma clamp_up_mem {x d : ℚ} (h0 : 0 ≤ x) (hd : 0 ≤ d) :
    0 ≤ min 1 (x + d) ∧ min 1 (x + d) ≤ 1 :=
  ⟨le_min (by norm_num) (by linarith), min_le_left _ _⟩

lemma clamp_down_mem {x d : ℚ} (h1 : x ≤ 1) (hd : 0 ≤ d) :
    0 ≤ max 0 (x - d) ∧ max 0 (x - d) ≤ 1 :=
  ⟨le_max_left _ _, max_le (by norm_num) (by linarith)⟩

lemma updateFirst_forall {P : α → Prop} {p : α → Bool} {f : α → α} {l : List α}
    (hl : ∀ a ∈ l, P a) (hf : ∀ a, P a → P (f a)) :
    ∀ a ∈ updateFirst p f l, P a := by
  induction l with
  | nil => simp [updateFirst]
  | cons b bs ih =>
    intro a ha
    rw [updateFirst] at ha
    by_cases hb : p b
    · simp only [hb, if_pos] at ha
      rcases List.mem_cons.mp ha with h | h
      · exact h ▸ hf b (hl b (List.mem_cons_self b bs))
      · exact hl a (List.mem_cons_of_mem b h)
    · simp only [hb, if_neg, Bool.false_eq_true, not_false_iff] at ha
      rcases List.mem_cons.mp ha with h | h
      · exact h ▸ hl b (List.mem_cons_self b bs)
      · exact ih (fun a ha => hl a (List.mem_cons_of_mem b ha)) a h

lemma modifyIdx_forall {P : α → Prop} {f : α → α} {l : List α} {n : ℕ}
    (hl : ∀ a ∈ l, P a) (hf : ∀ a, P a → P (f a)) :
    ∀ a ∈ modifyIdx f n l, P a := by
  induction l generalizing n with
  | nil => simp [modifyIdx]
  | cons b bs ih =>
    intro a ha
    cases n with
    | zero =>
      rw [modifyIdx] at ha
      rcases List.mem_cons.mp ha with h | h
      · exact h ▸ hf b (hl b (List.mem_cons_self b bs))
      · exact hl a (List.mem_cons_of_mem b h)
    | succ m =>
      rw [modifyIdx] at ha
      rcases List.mem_cons.mp ha with h | h
      · exact h ▸ hl b (List.mem_cons_self b bs)
      · exact ih (fun a ha => hl a (List.mem_cons_of_mem b ha)) a h

/-- Invariant of a single instance. -/
def InstIn01 (i : ServiceInstance) : Prop :=
  0 ≤ i.health_score ∧ i.health_score ≤ 1

lemma health_check_preserves {i : ServiceInstance} (hi : InstIn01 i) (probeOk : Bool) (now : ℚ) :
    InstIn01 (health_check probeOk now i) := by
  unfold health_check
  by_cases hp : probeOk
  · simp only [hp, ite_true]
    exact clamp_up_mem hi.1 (by norm_num)
  · simp only [hp, ite_false]
    exact clamp_down_mem hi.2 (by norm_num)

lemma registryStep_preserves {s : Services} (hs : ScoresIn01 s) (ev : RegistryEvent) :
    ScoresIn01 (registryStep s ev) := by
  cases ev with
  | recordSuccess name url =>
    unfold registryStep record_success
    refine updateFirst_forall hs (fun p hp => ?_)
    exact updateFirst_forall hp (fun i hi => clamp_up_mem hi.1 (by norm_num))
  | recordFailure name url =>
    unfold registryStep record_failure
    refine updateFirst_forall hs (fun p hp => ?_)
    exact updateFirst_forall hp (fun i hi => clamp_down_mem hi.2 (by norm_num))
  | healthCheck name idx probeOk now =>
    unfold registryStep
    refine updateFirst_forall hs (fun p hp => ?_)
    exact modifyIdx_forall hp (fun i hi => health_check_preserves hi probeOk now)

lemma registryRun_preserves {s : Services} (hs : ScoresIn01 s) (evs : List RegistryEvent) :
    ScoresIn01 (registryRun s evs) := by
  induction evs generalizing s with
  | nil => exact hs
  | cons ev evs ih => exact ih (registryStep_preserves hs ev)

/-! ## `get_service_url`: healthy filter, fallback and weighted random choice

`random.choices(healthy_instances, weights=weights)[0]` (CPython 3.11, the
interpreter pinned by the repository's Dockerfile): with no `cum_weights`,
it accumulates the weights, reads `cum_weights[-1]` (an `IndexError` on an
empty population), raises `ValueError` when the total is not positive, and
otherwise returns `population[bisect_right(cum_weights, random() * total,
0, n - 1)]`.  `bisect_right` over the running sums, with the high bound
`n - 1`, is the walk below: subtract the weight of each instance in turn
until the draw falls inside an instance's weight slab, capping at the last
instance.  The unit draw `random()` is the rational argument `r ∈ [0, 1)`. -/

/-- `population[bisect_right(cum_weights, x, 0, n-1)]` for population
`a :: rest`, weight of each instance being its own `health_score`. -/
def selectInstance (a : ServiceInstance) : List ServiceInstance → ℚ → ServiceInstance
  | [], _ => a
  | b :: rest, x => if x < a.health_score then a else selectInstance b rest (x - a.health_score)

/-- Total weight `cum_weights[-1]`: the sum of the pool's health scores. -/
def totalScore (l : List ServiceInstance) : ℚ :=
  (l.map (fun i => i.health_score)).sum

/-- `[inst for inst in instances if inst.health_score > 0.3]`. -/
def healthyOf (instances : List ServiceInstance) : List ServiceInstance :=
  instances.filter (fun i => decide (i.health_score > 3/10))

/-- The healthy set, or the full instance set when no instance is healthy
(`if not healthy_instances: healthy_instances = instances`). -/
def poolOf (instances : List ServiceInstance) : List ServiceInstance :=
  if (healthyOf instances).isEmpty then instances else healthyOf instances

/-- How a `get_service_url` call can fail. -/
inductive GetUrlError where
  /-- `raise ValueError(f"Service {service_name} not found")` — the
  `ServiceNotFound` condition. -/
  | serviceNotFound
  /-- `IndexError` from `cum_weights[-1]` in `random.choices` on an empty
  population. -/
  | emptyPopulation
  /-- `ValueError('Total of weights must be greater than zero')` from
  `random.choices` when every weight is zero. -/
  | zeroTotalWeight
deriving DecidableEq, Repr

/-- The `if service_name not in self.services:` block of `get_service_url`:
resolve the instance list from the dict, else from the Redis
`GET service:{name}` fallback (`storeUrls`; loading registers fresh
instances at score 1.0), else `raise ValueError(...)`. -/
def resolveInstances (s : Services) (storeUrls : Option (List String))
    (name : String) : Except GetUrlError (List ServiceInstance) :=
  match servicesGet s name with
  | some insts => .ok insts
  | none =>
    match storeUrls with
    | some urls => .ok (urls.map mkInstance)
    | none => .error .serviceNotFound

/-- The filtering/fallback/selection tail of `get_service_url`:
`random.choices(healthy_instances, weights)[0].url` with its `IndexError`
and `ValueError` failure modes. -/
def chooseFromPool (instances : List ServiceInstance) (r : ℚ) :
    Except GetUrlError String :=
  match poolOf instances with
  | [] => .error .emptyPopulation
  | a :: rest =>
    if totalScore (a :: rest) ≤ 0 then .error .zeroTotalWeight
    else .ok (selectInstance a rest (r * totalScore (a :: rest))).url

/-- `get_service_url(service_name)`.  `storeUrls` is the result of the
Redis `GET service:{service_name}` fallback consulted when the name is not
in the in-process dict (`register_service`'s own Redis write-back is a
persistence side effect with no health state and is not returned).
`r ∈ [0, 1)` is the `random()` draw consumed by `random.choices`. -/
def get_service_url (s : Services) (storeUrls : Option (List String))
    (name : String) (r : ℚ) : Except GetUrlError String :=
  match resolveInstances s storeUrls name with
  | .error e => .error e
  | .ok instances => chooseFromPool instances r

/-! ### Selection lemmas -/

/-- The selected instance is a member of the pool. -/
lemma selectInstance_mem (a : ServiceInstance) (rest : List ServiceInstance) (x : ℚ) :
    selectInstance a rest x ∈ a :: rest := by
  induction rest generalizing a x with
  | nil => simp [selectInstance]
  | cons b rest ih =>
    rw [selectInstance]
    by_cases h : x < a.health_score
    · simp [h]
    · simp only [h, ite_false]
      exact List.mem_cons_of_mem a (ih b (x - a.health_score))

/-- A zero-weight instance is never selected: as long as the draw still lies
strictly below the remaining total weight, the instance it lands on has
positive health score. -/
lemma selectInstance_pos (a : ServiceInstance) (rest : List ServiceInstance) (x : ℚ)
    (hx0 : 0 ≤ x) (hxlt : x < totalScore (a :: rest))
    (hnn : ∀ i ∈ a :: rest, 0 ≤ i.health_score) :
    0 < (selectInstance a rest x).health_score := by
  induction rest generalizing a x with
  | nil =>
    simp only [selectInstance]
    simp only [totalScore, List.map_cons, List.map_nil, List.sum_cons, List.sum_nil,
      add_zero] at hxlt
    linarith
  | cons b rest ih =>
    rw [selectInstance]
    by_cases h : x < a.health_score
    · simp only [h, ite_true]
      linarith
    · simp only [h, ite_false]
      apply ih b (x - a.health_score)
      · linarith [not_lt.mp h]
      · simp only [totalScore, List.map_cons, List.sum_cons] at hxlt ⊢
        linarith
      · exact fun i hi => hnn i (List.mem_cons_of_mem a hi)

/-- The chosen pool is a subset of the instance list. -/
lemma poolOf_subset {insts : List ServiceInstance} : ∀ i ∈ poolOf insts, i ∈ insts := by
  intro i hi
  rw [poolOf] at hi
  split at hi
  · exact hi
  · exact (List.mem_filter.mp hi).1

lemma totalScore_of_all_one {l : List ServiceInstance}
    (h : ∀ i ∈ l, i.health_score = 1) : totalScore l = l.length := by
  induction l with
  | nil => rfl
  | cons a as ih =>
    simp only [totalScore, List.map_cons, List.sum_cons, List.length_cons] at *
    rw [h a (List.mem_cons_self a as), ih (fun i hi => h i (List.mem_cons_of_mem a hi))]
    push_cast
    ring

lemma chooseFromPool_eq {insts : List ServiceInstance} {a : ServiceInstance}
    {rest : List ServiceInstance} (r : ℚ) (hpool : poolOf insts = a :: rest)
    (hpos : 0 < totalScore (a :: rest)) :
    chooseFromPool insts r =
      .ok (selectInstance a rest (r * totalScore (a :: rest))).url := by
  rw [chooseFromPool, hpool]
  show (if totalScore (a :: rest) ≤ 0 then Except.error GetUrlError.zeroTotalWeight
        else Except.ok (selectInstance a rest (r * totalScore (a :: rest))).url) = _
  rw [if_neg (not_le.mpr hpos)]

lemma get_service_url_eq_choose {s : Services} {storeUrls : Option (List String)}
    {name : String} {insts : List ServiceInstance} (r : ℚ)
    (h : resolveInstances s storeUrls name = .ok insts) :
    get_service_url s storeUrls name r = chooseFromPool insts r := by
  rw [get_service_url, h]

/-- The selection tail never raises the `ServiceNotFound` condition. -/
lemma chooseFromPool_ne_serviceNotFound (insts : List ServiceInstance) (r : ℚ) :
    chooseFromPool insts r ≠ .error .serviceNotFound := by
  rw [chooseFromPool]
  cases poolOf insts with
  | nil => simp
  | cons a rest =>
    by_cases h : totalScore (a :: rest) ≤ 0 <;> simp [h]

/-! ## Authentication handler (`core/auth.py` section of the source)

JWTs are embedded structurally: a token is its payload together with the
key it was signed with, and `jwt.decode(token, secret, algorithms=[...])`
succeeds exactly when the signing key matches the verification key.  The
`jose` decoder verifies the signature first (`JWTError` on mismatch) and
only then validates the `exp` claim (`ExpiredSignatureError` when
`exp < now`); both orderings are visible below.  Timestamps are seconds as
naturals; the access TTL is 60 minutes and the refresh TTL 30 days. -/

structure User where
  user_id : String
  username : String
  roles : List String
deriving DecidableEq, Repr

/-- A decoded JWT payload dict.  Access tokens carry `username`/`roles`
and refresh tokens carry `token_id`; absent dict keys are `none` (reading
one raises an uncaught `KeyError` in the source). -/
structure JwtPayload where
  sub : String
  username : Option String := none
  roles : Option (List String) := none
  token_id : Option String := none
  iat : ℕ := 0
  exp : ℕ := 0
  type : String := ""
deriving DecidableEq, Repr

/-- A signed token: payload plus the key it was signed with. -/
structure Jwt where
  payload : JwtPayload
  sig : String
deriving DecidableEq, Repr

inductive JoseError where
  | expiredSignature
  | jwtError
deriving DecidableEq, Repr

/-- `jwt.decode(token, secret, algorithms=[alg])`: signature check first,
then the `exp` claim (`ExpiredSignatureError` iff `exp < now`). -/
def jwtDecode (secret : String) (now : ℕ) (t : Jwt) : Except JoseError JwtPayload :=
  if t.sig ≠ secret then .error .jwtError
  else if t.payload.exp < now then .error .expiredSignature
  else .ok t.payload

/-- The `AuthenticationError`s raised by `AuthHandler` (tagged by raise
site; the spec's error kinds appear in the comments), plus the uncaught
`KeyError` a malformed payload dict would raise. -/
inductive AuthErr where
  /-- `AuthenticationError("Invalid token type")` — `WrongTokenType`. -/
  | invalidTokenType
  /-- `AuthenticationError("Token has expired")` — `TokenExpired`. -/
  | tokenExpired
  /-- `AuthenticationError("Invalid token")` — `InvalidToken`. -/
  | invalidToken
  /-- `AuthenticationError("Invalid refresh token")` raised on
  `payload.get("type") != "refresh"`. -/
  | invalidRefreshType
  /-- `AuthenticationError("Refresh token not found or expired")` —
  `TokenRevokedOrExpired`. -/
  | refreshNotFound
  /-- `AuthenticationError("Refresh token has expired")`. -/
  | refreshExpired
  /-- `AuthenticationError("Invalid refresh token")` from a `JWTError`. -/
  | invalidRefresh
  /-- An uncaught `KeyError` on a missing payload dict key (not an
  `AuthenticationError`). -/
  | keyError (key : String)
deriving DecidableEq, Repr

/-- `create_access_token(user)`: `exp = now + 60 minutes`, `type="access"`. -/
def create_access_token (secret : String) (now : ℕ) (user : User) : Jwt :=
  { payload := { sub := user.user_id, username := some user.username,
                 roles := some user.roles, iat := now, exp := now + 3600,
                 type := "access" },
    sig := secret }

/-- `verify_token(token)`: decode, require `type == "access"`, rebuild the
user from `sub`/`username`/`roles`. -/
def verify_token (secret : String) (now : ℕ) (t : Jwt) : Except AuthErr User :=
  match jwtDecode secret now t with
  | .error .expiredSignature => .error .tokenExpired
  | .error .jwtError => .error .invalidToken
  | .ok payload =>
    if payload.type ≠ "access" then .error .invalidTokenType
    else
      match payload.username, payload.roles with
      | some u, some rs => .ok { user_id := payload.sub, username := u, roles := rs }
      | none, _ => .error (.keyError "username")
      | _, none => .error (.keyError "roles")

/-- The Redis record stored under `refresh_token:{token_id}`
(`{"user_id": ..., "created_at": ...}`). -/
structure RefreshRecord where
  user_id : String
  created_at : ℕ
deriving DecidableEq, Repr

/-- The key-value store for refresh-token records.  The TTL attached by
`SETEX` equals the refresh validity window and is not modelled separately:
every claim here acts within that window. -/
abbrev RedisStore := List (String × RefreshRecord)

def storeGet (s : RedisStore) (k : String) : Option RefreshRecord :=
  (s.find? (fun p => p.1 = k)).map (fun p => p.2)

def storeSet (s : RedisStore) (k : String) (v : RefreshRecord) : RedisStore :=
  (k, v) :: s.filter (fun p => decide (p.1 ≠ k))

def storeDelete (s : RedisStore) (k : String) : RedisStore :=
  s.filter (fun p => decide (p.1 ≠ k))

/-- Auth-handler state: the Redis store plus the source of fresh
`uuid.uuid4()` token identifiers (fresh ids are pairwise distinct and never
collide with previously issued ones; the counter models that). -/
structure AuthState where
  store : RedisStore
  nextUuid : ℕ
deriving DecidableEq, Repr

/-- `str(uuid.uuid4())` for the n-th generated identifier. -/
def uuidGen (n : ℕ) : String :=
  "uuid-" ++ toString n

/-- `create_refresh_token(user)`: `exp = now + 30 days`, `type="refresh"`,
persists `{user_id, created_at}` under `refresh_token:{token_id}`. -/
def create_refresh_token (secret : String) (now : ℕ) (user : User) (st : AuthState) :
    Jwt × AuthState :=
  let token_id := uuidGen st.nextUuid
  let tok : Jwt :=
    { payload := { sub := user.user_id, token_id := some token_id, iat := now,
                   exp := now + 2592000, type := "refresh" },
      sig := secret }
  (tok, { store := storeSet st.store ("refresh_token:" ++ token_id)
            { user_id := user.user_id, created_at := now },
          nextUuid := st.nextUuid + 1 })

structure TokenPair where
  access_token : Jwt
  refresh_token : Jwt
deriving DecidableEq, Repr

/-- `refresh_access_token(refresh_token)`: decode, require
`type == "refresh"`, look the record up (absence is the
`TokenRevokedOrExpired` condition), rebuild the user from the payload with
empty username and roles, issue a fresh access/refresh pair, then delete
the presented token's record. -/
def refresh_access_token (secret : String) (now : ℕ) (st : AuthState) (t : Jwt) :
    Except AuthErr (TokenPair × AuthState) :=
  match jwtDecode secret now t with
  | .error .expiredSignature => .error .refreshExpired
  | .error .jwtError => .error .invalidRefresh
  | .ok payload =>
    if payload.type ≠ "refresh" then .error .invalidRefreshType
    else
      match payload.token_id with
      | none => .error (.keyError "token_id")
      | some token_id =>
        match storeGet st.store ("refresh_token:" ++ token_id) with
        | none => .error .refreshNotFound
        | some _ =>
          let user : User := { user_id := payload.sub, username := "", roles := [] }
          let new_access := create_access_token secret now user
          let pr := create_refresh_token secret now user st
          let st' : AuthState :=
            { pr.2 with store := storeDelete pr.2.store ("refresh_token:" ++ token_id) }
          .ok ({ access_token := new_access, refresh_token := pr.1 }, st')

lemma string_append_ne {p a b : String} (h : a ≠ b) : p ++ a ≠ p ++ b := by
  intro hc
  apply h
  have hd := congrArg String.data hc
  rw [String.data_append, String.data_append] at hd
  exact String.ext (List.append_cancel_left hd)

/-! ## Middleware pipeline (`core/middleware.py` and `create_application`)

Each middleware's `dispatch(request, call_next)` is a function from a
continuation and a request to a result; the rate limiter additionally
threads the Redis counter store.  An in-flight outcome is either a complete
response (status code plus the `error.code` tag of its JSON body, or a
route tag for a handler response) or a raised, not-yet-handled exception. -/

/-- Python `s.startswith(pre)`. -/
def pyStartsWith (s pre : String) : Bool :=
  pre.data.isPrefixOf s.data

/-- The `Authorization` header: either a well-formed `Bearer <token>` value
or a present value that does not start with `"Bearer "`. -/
inductive HeaderVal where
  | bearer (tok : Jwt)
  | otherScheme
deriving DecidableEq, Repr

structure GwRequest where
  path : String
  clientHost : String
  header : Option HeaderVal := none
  /-- `request.state.current_user`, attached by the authentication stage. -/
  principal : Option User := none
deriving DecidableEq, Repr

/-- An exception in flight: a `GenoFlowException` carrying its status code
and error code, or any other uncaught Python exception. -/
inductive GwExn where
  | genoflow (statusCode : ℕ) (errorCode : String)
  | other (msg : String)
deriving DecidableEq, Repr

inductive GwResult where
  | resp (statusCode : ℕ) (code : String)
  | raised (e : GwExn)
deriving DecidableEq, Repr

/-- The in-process counter map behind `rate_limit:{client}:{minute}` keys.
(TTLs are irrelevant inside one window and not modelled.) -/
abbrev CounterStore := List (String × ℕ)

def counterGet (st : CounterStore) (k : String) : ℕ :=
  ((st.find? (fun p => p.1 = k)).map (fun p => p.2)).getD 0

def counterSet (st : CounterStore) (k : String) (v : ℕ) : CounterStore :=
  (k, v) :: st.filter (fun p => decide (p.1 ≠ k))

/-- Whether the Redis round trips of one rate-limit check succeed or raise:
`incrFail` makes `INCR` raise, `expireFail` makes the `EXPIRE` issued on a
window's first hit raise. -/
inductive RedisBehavior where
  | ok
  | incrFail
  | expireFail
deriving DecidableEq, Repr

/-- Configuration and environment of one dispatch: signing secret, current
time (seconds), `rate_limit_per_minute`, and the Redis health. -/
structure GwConfig where
  secret : String
  now : ℕ
  rateLimit : ℕ
  redis : RedisBehavior := .ok
deriving Repr

/-- A middleware stage (or the route handler): request and counter store
in, updated store and outcome out. -/
abbrev Disp := GwRequest → CounterStore → CounterStore × GwResult

/-- `ErrorHandlingMiddleware.dispatch`: forward, map a `GenoFlowException`
to its status/code JSON body, map anything else to a 500
`INTERNAL_SERVER_ERROR` body. -/
def errorHandlingDispatch (next : Disp) : Disp := fun req st =>
  match next req st with
  | (st', .resp s c) => (st', .resp s c)
  | (st', .raised (.genoflow sc code)) => (st', .resp sc code)
  | (st', .raised (.other _)) => (st', .resp 500 "INTERNAL_SERVER_ERROR")

/-- `LoggingMiddleware.dispatch`: logs, forwards, adds a response header;
an exception from `call_next` propagates through it. -/
def loggingDispatch (next : Disp) : Disp := fun req st =>
  next req st

/-- The client identity the rate limiter keys on: `user:{sub}` when a
Bearer token is present (decoded without signature verification — a
structural token always decodes), else `ip:{client.host}`. -/
def deriveClientId (req : GwRequest) : String :=
  match req.header with
  | some (.bearer t) => "user:" ++ t.payload.sub
  | _ => "ip:" ++ req.clientHost

/-- `rate_limit:{client_id}:{current_minute}`. -/
def rlKey (cfg : GwConfig) (req : GwRequest) : String :=
  "rate_limit:" ++ deriveClientId req ++ ":" ++ toString (cfg.now / 60)

/-- `RateLimitMiddleware.dispatch`: skip for `/health`, `/docs`, `/redoc`;
`INCR` the window counter, `EXPIRE` on a window's first hit, reject with
429 when the count exceeds the ceiling; any Redis exception is caught and
the request forwarded (fail-open). -/
def rateLimitDispatch (cfg : GwConfig) (next : Disp) : Disp := fun req st =>
  if req.path ∈ (["/health", "/docs", "/redoc"] : List String) then next req st
  else
    match cfg.redis with
    | .incrFail => next req st
    | beh =>
      let cnt := counterGet st (rlKey cfg req) + 1
      let st' := counterSet st (rlKey cfg req) cnt
      if beh = .expireFail ∧ cnt = 1 then next req st'
      else if cnt > cfg.rateLimit then (st', .resp 429 "RATE_LIMIT_EXCEEDED")
      else next req st'

/-- The exclusion list of `AuthenticationMiddleware.__init__`. -/
def excludePaths : List String :=
  ["/health", "/docs", "/redoc", "/openapi.json", "/auth/login", "/auth/refresh", "/"]

/-- `AuthenticationMiddleware.dispatch`: skip when the path starts with any
excluded path; otherwise demand a `Bearer` header, verify it, attach the
principal to the request state and forward; an `AuthenticationError` yields
a 401 `AUTHENTICATION_FAILED` body, any other exception (e.g. a `KeyError`
from the payload) a 401 `AUTHENTICATION_ERROR` body. -/
def authenticationDispatch (cfg : GwConfig) (next : Disp) : Disp := fun req st =>
  if excludePaths.any (fun p => pyStartsWith req.path p) then next req st
  else
    match req.header with
    | none => (st, .resp 401 "MISSING_AUTHENTICATION")
    | some .otherScheme => (st, .resp 401 "MISSING_AUTHENTICATION")
    | some (.bearer tok) =>
      match verify_token cfg.secret cfg.now tok with
      | .ok user => next { req with principal := some user } st
      | .error (.keyError _) => (st, .resp 401 "AUTHENTICATION_ERROR")
      | .error _ => (st, .resp 401 "AUTHENTICATION_FAILED")

/-- The middleware classes added by `create_application` (plus the route
handler below them). -/
inductive Mw where
  | errorHandling
  | logging
  | rateLimit
  | authentication
  | cors
  | gzip
deriving DecidableEq, Repr

/-- Starlette's `Starlette.add_middleware` prepends:
`self.user_middleware.insert(0, Middleware(cls, ...))`, and
`build_middleware_stack` wraps the router in reversed list order, so the
HEAD of `user_middleware` is the OUTERMOST stage — the middleware added
LAST runs FIRST on the way in. -/
def addMiddleware (stack : List Mw) (m : Mw) : List Mw :=
  m :: stack

/-- The `app.add_middleware` calls of `create_application`, in source
order: GZip, CORS, then the four custom stages ErrorHandling, Logging,
RateLimit, Authentication.  The resulting list is outermost-first. -/
def createApplicationMiddleware : List Mw :=
  addMiddleware (addMiddleware (addMiddleware (addMiddleware (addMiddleware
    (addMiddleware [] .gzip) .cors) .errorHandling) .logging) .rateLimit) .authentication

/-- The four custom stages of the pipeline contract, outermost-first. -/
def customMiddlewareOrder : List Mw :=
  createApplicationMiddleware.filter (fun m => decide (m ≠ .cors) && decide (m ≠ .gzip))

/-- GZip and CORS only rewrite bodies/headers; for status and error-code
observations they forward unchanged. -/
def mwDispatch (cfg : GwConfig) : Mw → Disp → Disp
  | .errorHandling => errorHandlingDispatch
  | .logging => loggingDispatch
  | .rateLimit => rateLimitDispatch cfg
  | .authentication => authenticationDispatch cfg
  | .cors => fun next => next
  | .gzip => fun next => next

/-- Wrap a handler in a middleware list, head outermost. -/
def buildStack (cfg : GwConfig) (mws : List Mw) (handler : Disp) : Disp :=
  mws.foldr (mwDispatch cfg) handler

/-! ## Claims -/

/-- C3: for every `ServiceInstance`, `0.0 ≤ health_score ≤ 1.0` holds after
any finite sequence of `record_success`, `record_failure` and
`health_check` calls, given that every instance starts at
`health_score = 1.0`. -/
theorem health_score_always_clamped (s : Services)
    (hinit : ∀ p ∈ s, ∀ i ∈ p.2, i.health_score = 1)
    (evs : List RegistryEvent) :
    ScoresIn01 (registryRun s evs) := by
  refine registryRun_preserves (fun p hp i hi => ?_) evs
  rw [hinit p hp i hi]
  exact ⟨by norm_num, le_refl 1⟩

/-- Witness for C3: a registry of two fresh instances keeps all scores in
`[0, 1]` through a passive failure, a failed probe and a passive success. -/
theorem health_score_always_clamped_witness :
    ScoresIn01 (registryRun [("qc", [mkInstance "http://a", mkInstance "http://b"])]
      [.recordFailure "qc" "http://a", .healthCheck "qc" 0 false 5,
       .recordSuccess "qc" "http://b"]) :=
  health_score_always_clamped _
    (by
      intro p hp i hi
      simp only [List.mem_singleton] at hp
      subst hp
      simp only [List.mem_cons, List.not_mem_nil, or_false] at hi
      rcases hi with h | h <;> subst h <;> rfl) _

/-- C8: `verify_token (create_access_token p)`, evaluated before expiry,
succeeds and returns a principal with `p`'s subject, username and roles
(hence equal subject and role set). -/
theorem verify_create_roundtrip (secret : String) (now : ℕ) (user : User) :
    verify_token secret now (create_access_token secret now user) =
      .ok { user_id := user.user_id, username := user.username, roles := user.roles } := by
  simp [verify_token, create_access_token, jwtDecode]

/-- Counterexample to C9: an access token whose `expires_at` has passed but
whose signature does not verify fails with `InvalidToken`
(`jose` checks the signature before the `exp` claim), not `TokenExpired`. -/
theorem verify_expired_bad_signature :
    verify_token "secret" 100
        { payload := { sub := "alice", username := some "alice", roles := some [],
                       iat := 0, exp := 50, type := "access" },
          sig := "wrong" } = .error .invalidToken ∧
    (50 : ℕ) < 100 := by
  exact ⟨rfl, by decide⟩

/-- C9 as amended: every token signed with the correct secret whose
`expires_at` has passed fails with `TokenExpired` — never `InvalidToken`
or `WrongTokenType` — regardless of the other payload fields. -/
theorem verify_expired_is_token_expired (t : Jwt) (secret : String) (now : ℕ)
    (hsig : t.sig = secret) (hexp : t.payload.exp < now) :
    verify_token secret now t = .error .tokenExpired := by
  simp [verify_token, jwtDecode, hsig, hexp]

/-- Witness for C9's amended theorem: a correctly signed token with
`exp = 50` verified at time 100 fails with `TokenExpired`. -/
theorem verify_expired_is_token_expired_witness :
    verify_token "secret" 100
        { payload := { sub := "bob", username := some "bob", roles := some ["admin"],
                       iat := 0, exp := 50, type := "refresh" },
          sig := "secret" } = .error .tokenExpired :=
  verify_expired_is_token_expired _ _ _ rfl (by decide)

/-- C1 is a code bug, evaluated here: the exclusion list contains `"/"`
and is matched by `startswith`, so the path `/api/v1/pipelines/run` —
which is NOT itself an excluded path — reaches the route handler with no
`Authorization` header and no principal attached, instead of the 401
short-circuit the claim requires. -/
theorem authentication_bypassed_on_protected_path :
    authenticationDispatch { secret := "secret", now := 1000, rateLimit := 100 }
        (fun req st => (st, .resp 200 (if req.principal.isSome then "HANDLED_AUTHED"
                                       else "HANDLED_ANON")))
        { path := "/api/v1/pipelines/run", clientHost := "10.0.0.5" } [] =
      ([], .resp 200 "HANDLED_ANON") ∧
    "/api/v1/pipelines/run" ∉ excludePaths := by
  exact ⟨rfl, by decide⟩

/-- Counterexample to C2: the nesting order actually built by
`create_application` is not error containment, logging, rate limiting,
authentication (outermost to innermost). -/
theorem middleware_order_not_as_claimed :
    customMiddlewareOrder ≠ [Mw.errorHandling, Mw.logging, Mw.rateLimit, Mw.authentication] := by
  decide

/-- C2 as amended: `add_middleware` prepends, so the four custom stages
nest in the REVERSE of the order they are added — authentication outermost,
then rate limiting, then logging, and error containment INNERMOST of the
four; the error-containment stage still wraps the route handler, so a
`GenoFlowException` raised by the handler is formatted (the errors it does
not see are those raised inside the other three stages, which sit above
it). -/
theorem middleware_order_reversed :
    customMiddlewareOrder =
      [Mw.authentication, Mw.rateLimit, Mw.logging, Mw.errorHandling] ∧
    ∀ (cfg : GwConfig) (req : GwRequest) (sc : ℕ) (code : String),
      cfg.redis = .ok → 1 ≤ cfg.rateLimit → pyStartsWith req.path "/" = true →
      (buildStack cfg createApplicationMiddleware
        (fun _ st => (st, .raised (.genoflow sc code))) req []).2 = .resp sc code := by
  constructor
  · decide
  · intro cfg req sc code hbeh hlim hpath
    simp only [buildStack, createApplicationMiddleware, addMiddleware, List.foldr,
      mwDispatch]
    rw [authenticationDispatch]
    have hany : excludePaths.any (fun p => pyStartsWith req.path p) = true := by
      simp only [excludePaths, List.any_cons, List.any_nil, Bool.or_eq_true]
      tauto
    rw [if_pos hany, rateLimitDispatch]
    by_cases hskip : req.path ∈ (["/health", "/docs", "/redoc"] : List String)
    · rw [if_pos hskip]
      rfl
    · rw [if_neg hskip, hbeh]
      simp only [counterGet, List.find?_nil, Option.map_none', Option.getD_none,
        Nat.zero_add]
      have h1 : ¬ (RedisBehavior.ok = RedisBehavior.expireFail ∧ True) := by
        simp
      rw [if_neg h1]
      have h2 : ¬ (1 > cfg.rateLimit) := by omega
      rw [if_neg h2]
      rfl

/-- Witness for C2's amended theorem: a handler-raised
`GenoFlowException(503, "SERVICE_UNAVAILABLE")` leaves the full stack as a
formatted 503 response. -/
theorem middleware_order_reversed_witness :
    (buildStack { secret := "s", now := 0, rateLimit := 100 }
        createApplicationMiddleware
        (fun _ st => (st, .raised (.genoflow 503 "SERVICE_UNAVAILABLE")))
        { path := "/api/v1/qc/analyze", clientHost := "1.2.3.4" } []).2 =
      .resp 503 "SERVICE_UNAVAILABLE" :=
  middleware_order_reversed.2 _ _ 503 "SERVICE_UNAVAILABLE" rfl (by decide) (by decide)

/-! ### C6: rate limiter within one window -/

/-- A route handler that answers 200 when reached. -/
def okHandler : Disp := fun _ st => (st, .resp 200 "OK")

/-- `n` consecutive requests from the same client within the same minute
window, starting from an empty counter store. -/
def rateLimitRun (cfg : GwConfig) (req : GwRequest) : ℕ → CounterStore × List GwResult
  | 0 => ([], [])
  | n + 1 =>
    let p := rateLimitRun cfg req n
    let q := rateLimitDispatch cfg okHandler req p.1
    (q.1, p.2 ++ [q.2])

lemma counterGet_set_self (st : CounterStore) (k : String) (v : ℕ) :
    counterGet (counterSet st k v) k = v := by
  simp [counterGet, counterSet, List.find?_cons]

lemma rateLimitRun_spec (cfg : GwConfig) (req : GwRequest)
    (hbeh : cfg.redis = .ok)
    (hpath : req.path ∉ (["/health", "/docs", "/redoc"] : List String)) (n : ℕ) :
    rateLimitRun cfg req n =
      ((if n = 0 then [] else counterSet [] (rlKey cfg req) n),
       (List.range n).map (fun i =>
         if i + 1 ≤ cfg.rateLimit then GwResult.resp 200 "OK"
         else GwResult.resp 429 "RATE_LIMIT_EXCEEDED")) := by
  induction n with
  | zero => simp [rateLimitRun]
  | succ m ih =>
    rw [rateLimitRun, ih]
    simp only
    rw [rateLimitDispatch]
    rw [if_neg hpath, hbeh]
    simp only
    have hcnt : counterGet (if m = 0 then [] else counterSet [] (rlKey cfg req) m)
        (rlKey cfg req) = m := by
      by_cases hm : m = 0
      · simp [hm, counterGet]
      · rw [if_neg hm, counterGet_set_self]
    rw [hcnt]
    have h1 : ¬ (RedisBehavior.ok = RedisBehavior.expireFail ∧ m + 1 = 1) := by
      intro h
      exact absurd h.1 (by simp)
    rw [if_neg h1]
    have hset : counterSet (if m = 0 then [] else counterSet [] (rlKey cfg req) m)
        (rlKey cfg req) (m + 1) = counterSet [] (rlKey cfg req) (m + 1) := by
      by_cases hm : m = 0
      · simp [hm]
      · rw [if_neg hm]
        simp [counterSet, List.filter]
    rw [List.range_succ, List.map_append, List.map_cons, List.map_nil]
    by_cases hover : m + 1 > cfg.rateLimit
    · rw [if_pos hover, hset]
      have : ¬ (m + 1 ≤ cfg.rateLimit) := by omega
      simp [this]
    · rw [if_neg hover]
      simp only [okHandler, hset]
      have : m + 1 ≤ cfg.rateLimit := by omega
      simp [this]

/-- C6: for one client identity with ceiling `N`, within a single minute
window exactly the first `N` requests pass the rate-limit check and every
later one is answered 429; and a Redis failure during the check — whether
the `INCR` itself or the `EXPIRE` of a window's first hit — is caught and
the request forwarded (fail-open), never rejected or faulted. -/
theorem rate_limiter_window_and_fail_open :
    (∀ (cfg : GwConfig) (req : GwRequest) (n : ℕ),
      cfg.redis = .ok → req.path ∉ (["/health", "/docs", "/redoc"] : List String) →
      (rateLimitRun cfg req n).2 =
        (List.range n).map (fun i =>
          if i + 1 ≤ cfg.rateLimit then GwResult.resp 200 "OK"
          else GwResult.resp 429 "RATE_LIMIT_EXCEEDED")) ∧
    (∀ (cfg : GwConfig) (req : GwRequest) (st : CounterStore),
      cfg.redis = .incrFail →
      rateLimitDispatch cfg okHandler req st = (st, .resp 200 "OK")) ∧
    (∀ (cfg : GwConfig) (req : GwRequest),
      cfg.redis = .expireFail →
      (rateLimitDispatch cfg okHandler req []).2 = .resp 200 "OK") := by
  refine ⟨fun cfg req n hbeh hpath => ?_, fun cfg req st hbeh => ?_, fun cfg req hbeh => ?_⟩
  · rw [rateLimitRun_spec cfg req hbeh hpath n]
  · rw [rateLimitDispatch, hbeh]
    by_cases hskip : req.path ∈ (["/health", "/docs", "/redoc"] : List String)
    · rw [if_pos hskip]
      rfl
    · rw [if_neg hskip]
      rfl
  · rw [rateLimitDispatch, hbeh]
    by_cases hskip : req.path ∈ (["/health", "/docs", "/redoc"] : List String)
    · rw [if_pos hskip]
      rfl
    · rw [if_neg hskip]
      simp [counterGet, okHandler]

/-- Witness for C6: ceiling 2 and three in-window requests give OK, OK,
429; an `INCR` failure on an arbitrary store forwards the request. -/
theorem rate_limiter_window_and_fail_open_witness :
    (rateLimitRun { secret := "s", now := 0, rateLimit := 2 }
        { path := "/api/v1/results/1", clientHost := "1.2.3.4" } 3).2 =
      (List.range 3).map (fun i =>
        if i + 1 ≤ ({ secret := "s", now := 0, rateLimit := 2 } : GwConfig).rateLimit
        then GwResult.resp 200 "OK" else GwResult.resp 429 "RATE_LIMIT_EXCEEDED") ∧
    rateLimitDispatch { secret := "s", now := 0, rateLimit := 0, redis := .incrFail }
        okHandler { path := "/api/v1/results/1", clientHost := "1.2.3.4" }
        [("rate_limit:ip:1.2.3.4:0", 99)] =
      ([("rate_limit:ip:1.2.3.4:0", 99)], .resp 200 "OK") :=
  ⟨rate_limiter_window_and_fail_open.1 _ _ 3 rfl (by decide),
   rate_limiter_window_and_fail_open.2.1 _ _ _ rfl⟩

/-! ### C7 and C10: refresh-token rotation -/

lemma storeGet_delete_self (s : RedisStore) (k : String) :
    storeGet (storeDelete s k) k = none := by
  have hfind : (s.filter (fun p => decide (p.1 ≠ k))).find? (fun p => decide (p.1 = k)) = none := by
    rw [List.find?_eq_none]
    intro x hx
    have := List.of_mem_filter hx
    simp only [decide_eq_true_eq] at this ⊢
    exact this
  simp [storeGet, storeDelete, hfind]

lemma storeGet_delete_ne (s : RedisStore) (k k' : String) (h : k' ≠ k) :
    storeGet (storeDelete s k) k' = storeGet s k' := by
  induction s with
  | nil => rfl
  | cons a as ih =>
    by_cases hak : a.1 = k
    · have h1 : (decide (a.1 ≠ k)) = false := by simp [hak]
      have h2 : (decide (a.1 = k')) = false := by
        simp only [decide_eq_false_iff_not]
        rw [hak]
        exact fun hc => h hc.symm
      simp only [storeDelete, storeGet, List.filter_cons, h1, List.find?_cons, h2] at *
      exact ih
    · have h1 : (decide (a.1 ≠ k)) = true := by simp [hak]
      simp only [storeDelete, storeGet, List.filter_cons, h1, if_true, List.find?_cons] at *
      by_cases h2 : a.1 = k'
      · simp [h2]
      · have h3 : (decide (a.1 = k')) = false := by simp [h2]
        simp only [h3]
        exact ih

lemma storeGet_set_self (s : RedisStore) (k : String) (v : RefreshRecord) :
    storeGet (storeSet s k v) k = some v := by
  simp [storeGet, storeSet, List.find?_cons]

/-- C7: `refresh_access_token` consumes the presented refresh token: a
valid refresh call succeeds, issues an access/refresh pair for the same
subject, deletes the presented token's store record, persists the fresh
one, and a second call with the same original token fails with
`TokenRevokedOrExpired` (`"Refresh token not found or expired"`). -/
theorem refresh_token_rotation (secret : String) (now : ℕ) (st : AuthState) (t : Jwt)
    (tid : String) (rec : RefreshRecord)
    (hsig : t.sig = secret) (hexp : ¬ t.payload.exp < now)
    (htype : t.payload.type = "refresh") (htid : t.payload.token_id = some tid)
    (hrec : storeGet st.store ("refresh_token:" ++ tid) = some rec)
    (hfresh : tid ≠ uuidGen st.nextUuid) :
    ∃ pair st',
      refresh_access_token secret now st t = .ok (pair, st') ∧
      pair.access_token.payload.sub = t.payload.sub ∧
      pair.access_token.payload.type = "access" ∧
      pair.refresh_token.payload.sub = t.payload.sub ∧
      pair.refresh_token.payload.type = "refresh" ∧
      storeGet st'.store ("refresh_token:" ++ tid) = none ∧
      storeGet st'.store ("refresh_token:" ++ uuidGen st.nextUuid) =
        some { user_id := t.payload.sub, created_at := now } ∧
      ∀ now₂, ¬ t.payload.exp < now₂ →
        refresh_access_token secret now₂ st' t = .error .refreshNotFound := by
  have hgone : storeGet
      (storeDelete (create_refresh_token secret now
        { user_id := t.payload.sub, username := "", roles := [] } st).2.store
        ("refresh_token:" ++ tid))
      ("refresh_token:" ++ tid) = none :=
    storeGet_delete_self _ _
  refine ⟨{ access_token := create_access_token secret now
              { user_id := t.payload.sub, username := "", roles := [] },
            refresh_token := (create_refresh_token secret now
              { user_id := t.payload.sub, username := "", roles := [] } st).1 },
          { (create_refresh_token secret now
              { user_id := t.payload.sub, username := "", roles := [] } st).2 with
            store := storeDelete (create_refresh_token secret now
              { user_id := t.payload.sub, username := "", roles := [] } st).2.store
              ("refresh_token:" ++ tid) },
          ?_, rfl, rfl, rfl, rfl, ?_, ?_, ?_⟩
  · simp [refresh_access_token, jwtDecode, hsig, hexp, htype, htid, hrec]
  · exact hgone
  · rw [storeGet_delete_ne _ _ _ (string_append_ne (Ne.symm hfresh))]
    exact storeGet_set_self _ _ _
  · intro now₂ hexp₂
    simp [refresh_access_token, jwtDecode, hsig, hexp₂, htype, htid, hgone]

/-- Witness for C7: a concrete valid refresh token is consumed — the first
call succeeds and rotates the store, the second fails with
`TokenRevokedOrExpired`. -/
theorem refresh_token_rotation_witness :
    ∃ pair st',
      refresh_access_token "s" 100
          { store := [("refresh_token:old", { user_id := "alice", created_at := 50 })],
            nextUuid := 0 }
          { payload := { sub := "alice", token_id := some "old", iat := 50,
                         exp := 2592050, type := "refresh" },
            sig := "s" } = .ok (pair, st') ∧
      pair.access_token.payload.sub = "alice" ∧
      pair.access_token.payload.type = "access" ∧
      pair.refresh_token.payload.sub = "alice" ∧
      pair.refresh_token.payload.type = "refresh" ∧
      storeGet st'.store ("refresh_token:" ++ "old") = none ∧
      storeGet st'.store ("refresh_token:" ++ uuidGen 0) =
        some { user_id := "alice", created_at := 100 } ∧
      ∀ now₂, ¬ (2592050 : ℕ) < now₂ →
        refresh_access_token "s" now₂ st'
            { payload := { sub := "alice", token_id := some "old", iat := 50,
                           exp := 2592050, type := "refresh" },
              sig := "s" } = .error .refreshNotFound :=
  refresh_token_rotation "s" 100 _ _ "old" { user_id := "alice", created_at := 50 }
    rfl (by decide) rfl rfl rfl (by decide)

/-- C10 (implicit): the access token minted by `refresh_access_token`
always carries empty username and empty roles — the refresh flow rebuilds
the user as `User(sub, "", [])` — so verifying the refreshed access token
yields a principal with no roles, whatever the original token carried. -/
theorem refreshed_access_token_has_no_roles (secret : String) (now : ℕ) (st : AuthState)
    (t : Jwt) (tid : String) (rec : RefreshRecord)
    (hsig : t.sig = secret) (hexp : ¬ t.payload.exp < now)
    (htype : t.payload.type = "refresh") (htid : t.payload.token_id = some tid)
    (hrec : storeGet st.store ("refresh_token:" ++ tid) = some rec) :
    ∃ pair st',
      refresh_access_token secret now st t = .ok (pair, st') ∧
      pair.access_token.payload.username = some "" ∧
      pair.access_token.payload.roles = some [] ∧
      verify_token secret now pair.access_token =
        .ok { user_id := t.payload.sub, username := "", roles := [] } := by
  refine ⟨{ access_token := create_access_token secret now
              { user_id := t.payload.sub, username := "", roles := [] },
            refresh_token := (create_refresh_token secret now
              { user_id := t.payload.sub, username := "", roles := [] } st).1 },
          { (create_refresh_token secret now
              { user_id := t.payload.sub, username := "", roles := [] } st).2 with
            store := storeDelete (create_refresh_token secret now
              { user_id := t.payload.sub, username := "", roles := [] } st).2.store
              ("refresh_token:" ++ tid) },
          ?_, rfl, rfl, ?_⟩
  · simp [refresh_access_token, jwtDecode, hsig, hexp, htype, htid, hrec]
  · simp [verify_token, jwtDecode, create_access_token]

/-- Witness for C10: refreshing a token of a subject whose original access
token carried the `admin` role yields an access token that verifies to a
principal with username `""` and no roles. -/
theorem refreshed_access_token_has_no_roles_witness :
    ∃ pair st',
      refresh_access_token "s" 200
          { store := [("refresh_token:rt1", { user_id := "bob", created_at := 10 })],
            nextUuid := 7 }
          { payload := { sub := "bob", token_id := some "rt1", iat := 10,
                         exp := 2592010, type := "refresh" },
            sig := "s" } = .ok (pair, st') ∧
      pair.access_token.payload.username = some "" ∧
      pair.access_token.payload.roles = some [] ∧
      verify_token "s" 200 pair.access_token =
        .ok { user_id := "bob", username := "", roles := [] } :=
  refreshed_access_token_has_no_roles "s" 200 _ _ "rt1"
    { user_id := "bob", created_at := 10 } rfl (by decide) rfl rfl rfl

/-! ### C4 and C5: service resolution and weighted selection -/

/-- Two fully degraded instances (score exactly 0, as produced by the
`max(0.0, ...)` clamp under repeated failures). -/
def degradedInstances : List ServiceInstance :=
  [{ url := "http://a", health_score := 0, last_check := 0, failures := 5 },
   { url := "http://b", health_score := 0, last_check := 0, failures := 7 }]

/-- A registry whose only `"qc"` instances are both fully degraded. -/
def degradedRegistry : Services :=
  [("qc", degradedInstances)]

/-- One fresh healthy instance. -/
def healthyQcInstance : ServiceInstance :=
  { url := "http://a", health_score := 1, last_check := 0, failures := 0 }

lemma healthyOf_of_all_zero {insts : List ServiceInstance}
    (h : ∀ i ∈ insts, i.health_score = 0) : healthyOf insts = [] := by
  rw [healthyOf, List.filter_eq_nil_iff]
  intro i hi
  rw [h i hi]
  norm_num

lemma poolOf_of_all_zero {insts : List ServiceInstance}
    (h : ∀ i ∈ insts, i.health_score = 0) : poolOf insts = insts := by
  rw [poolOf, healthyOf_of_all_zero h]
  rfl

lemma totalScore_of_all_zero {insts : List ServiceInstance}
    (h : ∀ i ∈ insts, i.health_score = 0) : totalScore insts = 0 := by
  rw [totalScore]
  apply List.sum_eq_zero
  intro x hx
  rcases List.mem_map.mp hx with ⟨i, hi, rfl⟩
  exact h i hi

/-- Counterexample to C4: `"qc"` is registered (with two fully degraded
instances), so by the claim `get_service_url` must return the URL of one
instance from the fallback pool — but `random.choices` raises `ValueError`
on the all-zero weights and no URL is returned. -/
theorem get_service_url_no_url_from_degraded_pool :
    get_service_url degradedRegistry none "qc" (1/2) = .error .zeroTotalWeight ∧
    (servicesGet degradedRegistry "qc").isSome = true := by
  constructor
  · have hz : ∀ i ∈ degradedInstances, i.health_score = 0 := by
      intro i hi
      rw [degradedInstances] at hi
      simp only [List.mem_cons, List.not_mem_nil, or_false] at hi
      rcases hi with h | h <;> subst h <;> rfl
    have hres : resolveInstances degradedRegistry none "qc" = .ok degradedInstances := rfl
    have hpoolc : poolOf degradedInstances =
        { url := "http://a", health_score := 0, last_check := 0, failures := 5 } ::
        [{ url := "http://b", health_score := 0, last_check := 0, failures := 7 }] := by
      rw [poolOf_of_all_zero hz]
      rfl
    rw [get_service_url_eq_choose (1/2) hres, chooseFromPool, hpoolc]
    show (if totalScore _ ≤ 0 then _ else _) = _
    rw [if_pos (by norm_num [totalScore])]
  · rfl

/-- C4 as amended: `get_service_url` fails with the `ServiceNotFound`
condition iff the name is absent from the registry dict and nothing can be
loaded from the store; otherwise it restricts to instances with score
`> 0.3`, falls back to the full set when that set is empty, and returns
the URL of one pool member whenever the pool's total health score is
positive (likewise on the store-loaded path, whose fresh instances all
score 1.0); but a nonempty pool of total score 0 fails with
`random.choices`' `ValueError` and an empty pool with its `IndexError` —
not with `ServiceNotFound` and not with a URL. -/
theorem get_service_url_spec :
    (∀ (s : Services) (storeUrls : Option (List String)) (name : String) (r : ℚ),
      get_service_url s storeUrls name r = .error .serviceNotFound ↔
        servicesGet s name = none ∧ storeUrls = none) ∧
    (∀ (s : Services) (name : String) (insts : List ServiceInstance) (r : ℚ),
      servicesGet s name = some insts → 0 < totalScore (poolOf insts) →
      ∃ i ∈ poolOf insts, get_service_url s none name r = .ok i.url) ∧
    (∀ (s : Services) (name : String) (urls : List String) (r : ℚ),
      servicesGet s name = none → urls ≠ [] →
      ∃ i ∈ poolOf (urls.map mkInstance),
        get_service_url s (some urls) name r = .ok i.url) ∧
    (∀ (s : Services) (name : String) (insts : List ServiceInstance) (r : ℚ),
      servicesGet s name = some insts → poolOf insts ≠ [] →
      totalScore (poolOf insts) ≤ 0 →
      get_service_url s none name r = .error .zeroTotalWeight) ∧
    (∀ (s : Services) (name : String) (insts : List ServiceInstance) (r : ℚ),
      servicesGet s name = some insts → poolOf insts = [] →
      get_service_url s none name r = .error .emptyPopulation) := by
  have hresolve_some : ∀ (s : Services) (su : Option (List String)) (name : String)
      (insts : List ServiceInstance), servicesGet s name = some insts →
      resolveInstances s su name = .ok insts := by
    intro s su name insts hg
    rw [resolveInstances.eq_def, hg]
  have hselect : ∀ (insts : List ServiceInstance) (r : ℚ),
      0 < totalScore (poolOf insts) →
      ∃ i ∈ poolOf insts, chooseFromPool insts r = .ok i.url := by
    intro insts r hpos
    cases hpool : poolOf insts with
    | nil =>
      rw [hpool] at hpos
      norm_num [totalScore] at hpos
    | cons a rest =>
      rw [hpool] at hpos
      exact ⟨selectInstance a rest (r * totalScore (a :: rest)),
        selectInstance_mem a rest _, chooseFromPool_eq r hpool hpos⟩
  refine ⟨?_, ?_, ?_, ?_, ?_⟩
  · intro s su name r
    constructor
    · intro h
      rw [get_service_url] at h
      cases hres : resolveInstances s su name with
      | ok insts =>
        rw [hres] at h
        exact absurd h (chooseFromPool_ne_serviceNotFound insts r)
      | error e =>
        rw [resolveInstances.eq_def] at hres
        cases hg : servicesGet s name with
        | some insts => rw [hg] at hres; exact absurd hres (by simp)
        | none =>
          rw [hg] at hres
          cases hsu : su with
          | some urls => rw [hsu] at hres; exact absurd hres (by simp)
          | none => exact ⟨rfl, rfl⟩
    · rintro ⟨hg, hsu⟩
      subst hsu
      rw [get_service_url, resolveInstances.eq_def, hg]
  · intro s name insts r hg hpos
    rcases hselect insts r hpos with ⟨i, hi, heq⟩
    exact ⟨i, hi, (get_service_url_eq_choose r (hresolve_some s none name insts hg)).trans heq⟩
  · intro s name urls r hg hurls
    have hone : ∀ i ∈ urls.map mkInstance, i.health_score = 1 := by
      intro i hi
      rcases List.mem_map.mp hi with ⟨u, _, rfl⟩
      rfl
    have hfilter : healthyOf (urls.map mkInstance) = urls.map mkInstance := by
      rw [healthyOf, List.filter_eq_self]
      intro i hi
      rw [hone i hi]
      exact decide_eq_true (by norm_num)
    have hpooleq : poolOf (urls.map mkInstance) = urls.map mkInstance := by
      rw [poolOf, hfilter, ite_self]
    have hpos : 0 < totalScore (poolOf (urls.map mkInstance)) := by
      rw [hpooleq, totalScore_of_all_one hone]
      have : urls.map mkInstance ≠ [] := by
        simpa using hurls
      have hlen : 0 < (urls.map mkInstance).length := List.length_pos.mpr this
      exact_mod_cast hlen
    rcases hselect (urls.map mkInstance) r hpos with ⟨i, hi, heq⟩
    have hres : resolveInstances s (some urls) name = .ok (urls.map mkInstance) := by
      rw [resolveInstances.eq_def, hg]
    exact ⟨i, hi, (get_service_url_eq_choose r hres).trans heq⟩
  · intro s name insts r hg hne hle
    cases hpool : poolOf insts with
    | nil => exact absurd hpool hne
    | cons a rest =>
      rw [get_service_url_eq_choose r (hresolve_some s none name insts hg),
        chooseFromPool, hpool]
      show (if totalScore (a :: rest) ≤ 0 then _ else _) = _
      rw [if_pos (hpool ▸ hle)]
  · intro s name insts r hg hpool
    rw [get_service_url_eq_choose r (hresolve_some s none name insts hg),
      chooseFromPool, hpool]

/-- A single fully degraded instance. -/
def soleDegradedInstance : ServiceInstance :=
  { url := "http://only", health_score := 0, last_check := 0, failures := 9 }

/-- A degraded partner instance for mixed pools. -/
def degradedPartner : ServiceInstance :=
  { url := "http://z", health_score := 0, last_check := 0, failures := 4 }

/-- Counterexample to C5: when the fallback pool is a single fully
degraded instance, `get_service_url` does NOT return a URL — the all-zero
weights make `random.choices` raise
`ValueError('Total of weights must be greater than zero')`. -/
theorem get_service_url_fails_on_sole_degraded_instance :
    get_service_url [("qc", [soleDegradedInstance])] none "qc" 0 =
      .error .zeroTotalWeight := by
  have hz : ∀ i ∈ [soleDegradedInstance], i.health_score = 0 := by
    intro i hi
    simp only [List.mem_singleton] at hi
    subst hi
    rfl
  have hres : resolveInstances [("qc", [soleDegradedInstance])] none "qc" =
      .ok [soleDegradedInstance] := rfl
  have hpoolc : poolOf [soleDegradedInstance] = soleDegradedInstance :: [] := by
    rw [poolOf_of_all_zero hz]
  rw [get_service_url_eq_choose 0 hres, chooseFromPool, hpoolc]
  show (if totalScore _ ≤ 0 then _ else _) = _
  rw [if_pos (by norm_num [totalScore, soleDegradedInstance])]

/-- C5 as amended: with exact weights, a zero-score instance is never
selected while the chosen pool's total weight is positive (in particular a
pool with one instance at 1.0 and the rest at 0.0 yields that instance's
URL for every random draw); but when the chosen pool consists solely of
score-0 instances, `get_service_url` does not return a URL — it fails with
`random.choices`' `ValueError` on the all-zero weights. -/
theorem weighted_selection_never_picks_zero :
    (∀ (s : Services) (name : String) (insts : List ServiceInstance) (r : ℚ),
      servicesGet s name = some insts → (∀ i ∈ insts, 0 ≤ i.health_score) →
      0 ≤ r → r < 1 → 0 < totalScore (poolOf insts) →
      ∃ i ∈ poolOf insts, 0 < i.health_score ∧
        get_service_url s none name r = .ok i.url) ∧
    (∀ (s : Services) (name : String) (insts : List ServiceInstance)
       (winner : ServiceInstance) (r : ℚ),
      servicesGet s name = some insts → winner ∈ insts → winner.health_score = 1 →
      (∀ j ∈ insts, j ≠ winner → j.health_score = 0) →
      get_service_url s none name r = .ok winner.url) ∧
    (∀ (s : Services) (name : String) (insts : List ServiceInstance) (r : ℚ),
      servicesGet s name = some insts → insts ≠ [] →
      (∀ i ∈ insts, i.health_score = 0) →
      get_service_url s none name r = .error .zeroTotalWeight) := by
  refine ⟨?_, ?_, ?_⟩
  · intro s name insts r hg hnn hr0 hr1 hpos
    have hres : resolveInstances s none name = .ok insts := by
      rw [resolveInstances.eq_def, hg]
    cases hpool : poolOf insts with
    | nil =>
      rw [hpool] at hpos
      norm_num [totalScore] at hpos
    | cons a rest =>
      rw [hpool] at hpos
      refine ⟨selectInstance a rest (r * totalScore (a :: rest)),
        selectInstance_mem a rest _, ?_, ?_⟩
      · apply selectInstance_pos
        · exact mul_nonneg hr0 (le_of_lt hpos)
        · calc r * totalScore (a :: rest)
              < 1 * totalScore (a :: rest) := mul_lt_mul_of_pos_right hr1 hpos
            _ = totalScore (a :: rest) := one_mul _
        · intro i hi
          refine hnn i (poolOf_subset i ?_)
          rw [hpool]
          exact hi
      · exact (get_service_url_eq_choose r hres).trans (chooseFromPool_eq r hpool hpos)
  · intro s name insts winner r hg hmem hw hrest
    have hwh : winner ∈ healthyOf insts :=
      List.mem_filter.mpr ⟨hmem, by rw [hw]; exact decide_eq_true (by norm_num)⟩
    cases hhe : healthyOf insts with
    | nil =>
      rw [hhe] at hwh
      exact absurd hwh (List.not_mem_nil winner)
    | cons a rest =>
      have hpool : poolOf insts = a :: rest := by
        rw [poolOf, hhe]
        rfl
      have hall : ∀ j ∈ a :: rest, j = winner := by
        intro j hj
        rw [← hhe] at hj
        rcases List.mem_filter.mp hj with ⟨hjm, hjs⟩
        by_contra hne
        rw [hrest j hjm hne] at hjs
        exact absurd (of_decide_eq_true hjs) (by norm_num)
      have hone : ∀ j ∈ a :: rest, j.health_score = 1 := by
        intro j hj
        rw [hall j hj, hw]
      have hpos : 0 < totalScore (a :: rest) := by
        rw [totalScore_of_all_one hone]
        simp only [List.length_cons]
        exact_mod_cast Nat.succ_pos rest.length
      have hres : resolveInstances s none name = .ok insts := by
        rw [resolveInstances.eq_def, hg]
      rw [get_service_url_eq_choose r hres, chooseFromPool_eq r hpool hpos,
        hall _ (selectInstance_mem a rest _)]
  · intro s name insts r hg hne hz
    have hpoolc : poolOf insts = insts := poolOf_of_all_zero hz
    cases insts with
    | nil => exact absurd rfl hne
    | cons a rest =>
      have hres : resolveInstances s none name = .ok (a :: rest) := by
        rw [resolveInstances.eq_def, hg]
      rw [get_service_url_eq_choose r hres, chooseFromPool, hpoolc]
      show (if totalScore (a :: rest) ≤ 0 then _ else _) = _
      rw [if_pos (le_of_eq (totalScore_of_all_zero hz))]

/-- Witness for C5's amended theorem: over the pool `{score 1, score 0}`
the draw 2/3 (like every draw) selects the score-1 instance, and a
single-score-0 registration fails with the all-zero-weights error. -/
theorem weighted_selection_never_picks_zero_witness :
    get_service_url [("qc", [healthyQcInstance, degradedPartner])] none "qc" (2/3) =
      .ok "http://a" ∧
    get_service_url [("qc", [degradedPartner])] none "qc" (1/4) =
      .error .zeroTotalWeight :=
  ⟨weighted_selection_never_picks_zero.2.1 _ "qc" _ healthyQcInstance (2/3) rfl
      (List.mem_cons_self _ _) rfl
      (by
        intro j hj hne
        simp only [List.mem_cons, List.not_mem_nil, or_false] at hj
        rcases hj with h | h
        · exact absurd h hne
        · rw [h]
          rfl),
   weighted_selection_never_picks_zero.2.2 _ "qc" _ (1/4) rfl (by simp)
      (by
        intro i hi
        simp only [List.mem_singleton] at hi
        rw [hi]
        rfl)⟩

/-- Witness for C4's amended theorem: an unregistered name with an empty
store fails with `ServiceNotFound`, and a registered healthy `"qc"`
instance is selected and its URL returned. -/
theorem get_service_url_spec_witness :
    (get_service_url [] none "auth" 0 = .error .serviceNotFound ↔
      servicesGet ([] : Services) "auth" = none ∧ (none : Option (List String)) = none) ∧
    ∃ i ∈ poolOf [healthyQcInstance],
      get_service_url [("qc", [healthyQcInstance])] none "qc" (1/3) = .ok i.url :=
  ⟨get_service_url_spec.1 [] none "auth" 0,
   get_service_url_spec.2.1 _ "qc" _ (1/3) rfl (by
     norm_num [poolOf, healthyOf, totalScore, healthyQcInstance, List.filter])⟩

end GenoFlow
